import Mathlib

/-!
# Verification of the Seattle sidewalk accessibility pipeline

A shallow embedding of the data cleaning / aggregation / ranking pipeline of
`seattle_sidewalk_analysis.py`, together with proofs and refutations of the
specification's claims about it.

Modelling conventions:
* A row of the dataframe is a `Record`; nullable columns (pandas `NaN`) are
  `Option` fields.  Floating-point numbers are idealised as exact rationals `ℚ`.
* pandas `Series.median` skips nulls, sorts, and takes the middle element
  (or the mean of the two middle elements); on an empty series it returns
  `NaN`, which we model as `none` (`fillna` with `NaN` then leaves nulls
  in place, as in pandas).
* `df.groupby("neighborhood")` drops rows whose key is null and iterates
  groups in ascending key order (pandas default `sort=True`, `dropna=True`);
  the named aggregations `("severity", "count")` and `("severity", "mean")`
  count / average the non-null severities of each group.  The mean of an
  empty group is `NaN` in pandas; here it degenerates to `0` via rational
  division by zero — no claim below depends on that corner's mean value.
* `Series.round` rounds half to even (numpy); `roundHalfEven`/`roundTo`
  model this over `ℚ`.
* `sort_values(..., ascending=False)` is modelled by an insertion sort with
  the ≥-on-index relation; the order among tied indices is unspecified by
  the code (pandas' default quicksort is unstable) and no claim depends on it.
* The summary step `n1 = top10.iloc[0]; n2 = top10.iloc[1]` (script lines
  196–199) is modelled by `insightRows`, which returns `none` exactly when
  the script would raise an `IndexError`.
-/

/-- One row of the dataframe, after the column rename of script lines 18–25.
Nullable columns are `Option`s; floats are idealised as `ℚ`. -/
structure Record where
  longitude : Option ℚ
  latitude : Option ℚ
  label_type : Option String
  neighborhood : Option String
  severity : Option ℚ
  is_temporary : Option Bool
deriving DecidableEq

/-- One row of the `stats` dataframe built at script lines 45–58. -/
structure NeighborhoodStats where
  neighborhood : String
  total_barriers : ℕ
  avg_severity : ℚ
  barrier_density_index : ℚ
deriving DecidableEq

/-- Rational addition, computed on numerators and denominators via
`Rat.divInt`.  Mathlib's `Rat.add` is `@[irreducible]`, which blocks `decide`
on concrete inputs; this computes the same function (see `addQ_eq`). -/
def addQ (a b : ℚ) : ℚ :=
  Rat.divInt (a.num * (b.den : ℤ) + b.num * (a.den : ℤ)) ((a.den : ℤ) * (b.den : ℤ))

/-- Rational multiplication via `Rat.divInt`; same function as `*` (see `mulQ_eq`). -/
def mulQ (a b : ℚ) : ℚ :=
  Rat.divInt (a.num * b.num) ((a.den : ℤ) * (b.den : ℤ))

/-- Rational division via `Rat.divInt`; same function as `/`, with `divQ a 0 = 0`
(see `divQ_eq`). -/
def divQ (a b : ℚ) : ℚ :=
  Rat.divInt (a.num * (b.den : ℤ)) ((a.den : ℤ) * b.num)

/-- Sum of a list of rationals; same function as `List.sum` (see `sumQ_eq`). -/
def sumQ (l : List ℚ) : ℚ :=
  l.foldr addQ 0

/-- `10 ^ d` as an integer. -/
def pow10 : ℕ → ℤ
  | 0 => 1
  | d + 1 => 10 * pow10 d

/-- Sort a list of rationals ascending (the order pandas uses for `median`). -/
def sortedAsc (l : List ℚ) : List ℚ :=
  List.insertionSort (fun a b => a ≤ b) l

/-- pandas `Series.median` on the non-null values: middle element of the sorted
list, or the mean of the two middle elements; `none` on the empty list
(pandas returns `NaN` there). -/
def median (l : List ℚ) : Option ℚ :=
  if (sortedAsc l).length = 0 then none
  else if (sortedAsc l).length % 2 = 1 then (sortedAsc l)[(sortedAsc l).length / 2]?
  else
    match (sortedAsc l)[(sortedAsc l).length / 2 - 1]?, (sortedAsc l)[(sortedAsc l).length / 2]? with
    | some a, some b => some (divQ (addQ a b) 2)
    | _, _ => none

/-- `Series.fillna m` on one cell: keep a non-null value, replace a null by
`m`.  When `m` itself is `none` (median of an empty series, i.e. `NaN`) the
null survives, as in pandas. -/
def fillna (m : Option ℚ) (s : Option ℚ) : Option ℚ :=
  match s with
  | some v => some v
  | none => m

/-- Script line 30: `df["severity"] = df["severity"].fillna(df["severity"].median())`.
The median is computed once over the whole dataset, before any filtering. -/
def imputeSeverity (records : List Record) : List Record :=
  records.map (fun r => { r with severity := fillna (median (records.filterMap (fun x => x.severity))) r.severity })

/-- `df["longitude"] == 0` on one cell: comparison with a null is `False` in pandas. -/
def isZeroCoord (x : Option ℚ) : Bool :=
  match x with
  | some v => v == 0
  | none => false

/-- Script lines 34–36: `((longitude == 0) & (latitude == 0)) | longitude.isna() | latitude.isna()`. -/
def bad_coords (r : Record) : Bool :=
  (isZeroCoord r.longitude && isZeroCoord r.latitude) || r.longitude.isNone || r.latitude.isNone

/-- Script lines 30–37: impute severity, then drop rows with bad coordinates. -/
def cleanRecords (records : List Record) : List Record :=
  (imputeSeverity records).filter (fun r => !bad_coords r)

/-- Arithmetic mean of a list of rationals (`0` on the empty list, where
pandas would give `NaN`; no claim depends on that corner). -/
def meanQ (l : List ℚ) : ℚ :=
  divQ (sumQ l) (l.length : ℚ)

/-- The rows of one `groupby("neighborhood")` group: exact string match on the key. -/
def groupRecords (cleaned : List Record) (n : String) : List Record :=
  cleaned.filter (fun r => r.neighborhood == some n)

/-- The non-null severities of one group — what `("severity", "count")` and
`("severity", "mean")` actually count and average. -/
def groupSevs (cleaned : List Record) (n : String) : List ℚ :=
  (groupRecords cleaned n).filterMap (fun r => r.severity)

/-- Strict code-point comparison of characters. -/
def charLt (a b : Char) : Bool :=
  a.toNat < b.toNat

/-- Strict lexicographic (code-point) comparison of character lists. -/
def charListLt : List Char → List Char → Bool
  | _, [] => false
  | [], _ :: _ => true
  | a :: as, b :: bs => charLt a b || (a == b && charListLt as bs)

/-- Lexicographic code-point order on strings — the order Python compares
strings in, hence the order pandas sorts group keys in. -/
def strLe (a b : String) : Bool :=
  !(charListLt b.data a.data)

/-- The group keys of `df.groupby("neighborhood")`: the distinct non-null
neighborhood values, in ascending order (pandas default `sort=True`);
null keys are dropped (pandas default `dropna=True`). -/
def neighborhoods (cleaned : List Record) : List String :=
  List.insertionSort (fun a b => strLe a b) (cleaned.filterMap (fun r => r.neighborhood)).dedup

/-- One row of the aggregation at script lines 45–54: `total_barriers` is the
count of non-null severities in the group, `avg_severity` their mean, and
`barrier_density_index = total_barriers * avg_severity` is computed from the
UNROUNDED mean (line 54 runs before the rounding at lines 57–58). -/
def aggGroup (cleaned : List Record) (n : String) : NeighborhoodStats :=
  { neighborhood := n
    total_barriers := (groupSevs cleaned n).length
    avg_severity := meanQ (groupSevs cleaned n)
    barrier_density_index := mulQ ((groupSevs cleaned n).length : ℚ) (meanQ (groupSevs cleaned n)) }

/-- Script lines 45–54: one `NeighborhoodStats` per distinct non-null
neighborhood value. -/
def aggregate (cleaned : List Record) : List NeighborhoodStats :=
  (neighborhoods cleaned).map (aggGroup cleaned)

/-- Round half to even, the rounding mode of numpy / pandas `.round()`.
With `f = ⌊x⌋` the fractional part is `(x.num - f * x.den) / x.den`, so it is
below / above one half according as `2 * (x.num - f * x.den)` is below /
above `x.den`; on an exact half, round to the even neighbour. -/
def roundHalfEven (x : ℚ) : ℤ :=
  let f : ℤ := Rat.floor x
  let twiceFrac : ℤ := 2 * (x.num - f * (x.den : ℤ))
  if twiceFrac < (x.den : ℤ) then f
  else if (x.den : ℤ) < twiceFrac then f + 1
  else if f % 2 = 0 then f else f + 1

/-- `Series.round(d)` on one value: round half to even at `d` decimal places. -/
def roundTo (d : ℕ) (x : ℚ) : ℚ :=
  Rat.divInt (roundHalfEven (mulQ x (Rat.divInt (pow10 d) 1))) (pow10 d)

/-- Script lines 57–58: round `avg_severity` to 2 decimals and
`barrier_density_index` to 1 decimal (after the index was computed). -/
def roundStats (s : NeighborhoodStats) : NeighborhoodStats :=
  { s with
      avg_severity := roundTo 2 s.avg_severity
      barrier_density_index := roundTo 1 s.barrier_density_index }

/-- Script lines 61–65: sort descending by `barrier_density_index`. -/
def rankStats (l : List NeighborhoodStats) : List NeighborhoodStats :=
  List.insertionSort (fun a b => b.barrier_density_index ≤ a.barrier_density_index) l

/-- The final `stats` table built from an already-cleaned record list:
aggregate, round for display, sort descending by index (lines 45–65). -/
def stats_of (cleaned : List Record) : List NeighborhoodStats :=
  rankStats ((aggregate cleaned).map roundStats)

/-- The whole pipeline from raw (renamed) records to the ranked `stats` table. -/
def rankedReport (records : List Record) : List NeighborhoodStats :=
  stats_of (cleanRecords records)

/-- Script line 67: `top10 = stats.head(10)`. -/
def top10_of (records : List Record) : List NeighborhoodStats :=
  (rankedReport records).take 10

/-- Script lines 196–197: `n1 = top10.iloc[0]; n2 = top10.iloc[1]`.
Returns `none` exactly when the script raises `IndexError` (fewer than two rows). -/
def insightRows (l : List NeighborhoodStats) : Option (NeighborhoodStats × NeighborhoodStats) :=
  match l with
  | a :: b :: _ => some (a, b)
  | _ => none

/-- Does the record's neighborhood value occur in the given key list? -/
def nbIn (keys : List String) (r : Record) : Bool :=
  match r.neighborhood with
  | some n => keys.contains n
  | none => false

/-- Convenience builder for concrete test records (fields the pipeline never
branches on are left null). -/
def mkRecord (lon lat : Option ℚ) (nb : Option String) (sev : Option ℚ) : Record :=
  { longitude := lon, latitude := lat, label_type := none, neighborhood := nb,
    severity := sev, is_temporary := none }

/-- Severities `[1, 3, null, 5, null]` at valid coordinates (spec §8 imputation example). -/
def exC5 : List Record :=
  [mkRecord (some 1) (some 1) (some "A") (some 1),
   mkRecord (some 1) (some 1) (some "A") (some 3),
   mkRecord (some 1) (some 1) (some "A") none,
   mkRecord (some 1) (some 1) (some "A") (some 5),
   mkRecord (some 1) (some 1) (some "A") none]

/-- The records `{(A,4),(A,2),(B,5)}` of the spec's aggregation example, as an
already-cleaned list. -/
def exC7 : List Record :=
  [mkRecord (some 1) (some 1) (some "A") (some 4),
   mkRecord (some 1) (some 1) (some "A") (some 2),
   mkRecord (some 2) (some 2) (some "B") (some 5)]

/-- Thirty records of one neighborhood: twenty of severity 1, ten of severity 2.
The group mean is `4/3`; rounded to two decimals it is `1.33`, and
`round(30 * 4/3, 1) = 40.0` while `round(30 * 1.33, 1) = 39.9`. -/
def cexC1 : List Record :=
  List.replicate 20 (mkRecord (some 1) (some 1) (some "A") (some 1)) ++
  List.replicate 10 (mkRecord (some 1) (some 1) (some "A") (some 2))

/-- A single record at the `(0,0)` sentinel coordinate: cleaning removes every row. -/
def cexC2 : List Record :=
  [mkRecord (some 0) (some 0) (some "A") (some 3)]

/-- Two valid-coordinate records, both with null severity, one with a null
neighborhood.  Cleaning keeps both; aggregation counts neither. -/
def cexC3 : List Record :=
  [mkRecord (some 1) (some 1) (some "A") none,
   mkRecord (some 1) (some 1) none none]

/-- One valid-coordinate record whose severity is null — the dataset-wide
median of non-null severities does not exist, so the null survives cleaning. -/
def cexC4a : List Record :=
  [mkRecord (some 1) (some 1) (some "A") none]

/-- One valid-coordinate record with severity 7, outside `[1,5]`; cleaning
never validates the severity range. -/
def cexC4b : List Record :=
  [mkRecord (some 1) (some 1) (some "A") (some 7)]

/-- A record at longitude 0, latitude 47.6 (spec §8 filtering example). -/
def recRetained : Record :=
  mkRecord (some 0) (some (Rat.divInt 476 10)) (some "A") (some 3)

/-- A record at the `(0,0)` sentinel. -/
def recDropped : Record :=
  mkRecord (some 0) (some 0) (some "A") (some 3)

/-- One cleaned record with a neighborhood but a null severity. -/
def cexC7n : List Record :=
  [mkRecord (some 1) (some 1) (some "A") none]

/-- Two records of a single neighborhood: exactly one ranked row. -/
def cexC9 : List Record :=
  [mkRecord (some 1) (some 1) (some "A") (some 4),
   mkRecord (some 2) (some 2) (some "A") (some 2)]

/-- A record with a neighborhood and one with a null neighborhood, both with
valid coordinates and severities. -/
def exC10 : List Record :=
  [mkRecord (some 1) (some 1) (some "A") (some 3),
   mkRecord (some 2) (some 2) none (some 4)]

/-- One valid record with severity 3 in neighborhood "A" (witness input). -/
def wOne : List Record :=
  [mkRecord (some 1) (some 1) (some "A") (some 3)]

/-! ## Bridging lemmas: the `divInt`-based arithmetic agrees with `ℚ`'s operations -/

theorem addQ_eq (a b : ℚ) : addQ a b = a + b := by
  rw [addQ, show ((a.den : ℤ) * (b.den : ℤ)) = ((a.den * b.den : ℕ) : ℤ) by push_cast; ring,
    Rat.divInt_ofNat, ← Rat.add_def']

theorem mulQ_eq (a b : ℚ) : mulQ a b = a * b := by
  rw [mulQ, ← Rat.divInt_mul_divInt', Rat.divInt_self, Rat.divInt_self]

theorem divQ_eq (a b : ℚ) : divQ a b = a / b := by
  rw [divQ, ← Rat.divInt_mul_divInt', Rat.divInt_self, ← Rat.inv_divInt, Rat.divInt_self,
    ← Rat.div_def]

theorem sumQ_eq (l : List ℚ) : sumQ l = l.sum := by
  induction l with
  | nil => rfl
  | cons a as ih =>
    show addQ a (sumQ as) = (a :: as).sum
    rw [addQ_eq, ih, List.sum_cons]

/-! ## Permutation and sortedness facts about the sorting stages -/

theorem rankStats_perm (l : List NeighborhoodStats) : List.Perm (rankStats l) l :=
  List.perm_insertionSort _ l

theorem rankStats_sorted (l : List NeighborhoodStats) :
    List.Sorted (fun a b => b.barrier_density_index ≤ a.barrier_density_index) (rankStats l) := by
  haveI : IsTotal NeighborhoodStats
      (fun a b => b.barrier_density_index ≤ a.barrier_density_index) :=
    ⟨fun a b => le_total b.barrier_density_index a.barrier_density_index⟩
  haveI : IsTrans NeighborhoodStats
      (fun a b => b.barrier_density_index ≤ a.barrier_density_index) :=
    ⟨fun _ _ _ hab hbc => le_trans hbc hab⟩
  exact List.sorted_insertionSort _ l

theorem neighborhoods_nodup (cleaned : List Record) : (neighborhoods cleaned).Nodup :=
  (List.perm_insertionSort _ _).nodup_iff.2 (List.nodup_dedup _)

theorem mem_neighborhoods {cleaned : List Record} {n : String} :
    n ∈ neighborhoods cleaned ↔ some n ∈ cleaned.map (fun r => r.neighborhood) := by
  rw [neighborhoods, (List.perm_insertionSort _ _).mem_iff, List.mem_dedup]
  simp [List.mem_filterMap, List.mem_map]

/-! ## Counting lemmas for the total-barriers invariant -/

theorem countP_or_disjoint (l : List Record) (p q : Record → Bool)
    (h : ∀ a ∈ l, p a = true → q a = false) :
    l.countP (fun a => p a || q a) = l.countP p + l.countP q := by
  induction l with
  | nil => simp
  | cons a as ih =>
    have ha := h a (List.mem_cons_self a as)
    have ih2 := ih (fun x hx => h x (List.mem_cons_of_mem a hx))
    by_cases hp : p a = true
    · have hq : q a = false := ha hp
      simp only [List.countP_cons, hp, hq, ih2]
      simp
      omega
    · have hp2 : p a = false := Bool.eq_false_iff.2 hp
      by_cases hq : q a = true
      · simp only [List.countP_cons, hp2, hq, ih2]
        simp
        omega
      · have hq2 : q a = false := Bool.eq_false_iff.2 hq
        simp only [List.countP_cons, hp2, hq2, ih2]
        simp

theorem countP_nbIn (recs : List Record) :
    ∀ keys : List String, keys.Nodup →
      ((keys.map (fun n =>
          recs.countP (fun r => decide (r.neighborhood = some n) && (r.severity).isSome))).sum)
        = recs.countP (fun r => nbIn keys r && (r.severity).isSome) := by
  intro keys
  induction keys with
  | nil =>
    intro _
    simp only [List.map_nil, List.sum_nil]
    refine ((List.countP_eq_zero.2 ?_)).symm
    intro r _
    cases hr : r.neighborhood <;> simp [nbIn, hr]
  | cons k ks ih =>
    intro hnd
    have hk : k ∉ ks := (List.nodup_cons.1 hnd).1
    have hks : ks.Nodup := (List.nodup_cons.1 hnd).2
    have hcont : ks.contains k = false := by
      simp [List.contains, hk]
    have hsplit : recs.countP (fun r => nbIn (k :: ks) r && (r.severity).isSome)
        = recs.countP (fun r => (decide (r.neighborhood = some k) && (r.severity).isSome)
            || (nbIn ks r && (r.severity).isSome)) := by
      apply List.countP_congr
      intro r _
      cases hr : r.neighborhood with
      | none => simp [nbIn, hr]
      | some n =>
        by_cases hn : n = k
        · subst hn
          simp [nbIn, hr, List.contains_cons]
        · have h1 : (n == k) = false := by
            simp [hn]
          simp [nbIn, hr, List.contains_cons, hn, h1]
    rw [List.map_cons, List.sum_cons, ih hks, hsplit, countP_or_disjoint recs _ _ ?_]
    intro r _ hp
    have hnb : r.neighborhood = some k := by
      by_cases h : r.neighborhood = some k
    
      · exact h
      · simp [h] at hp
    have hfalse : nbIn ks r = false := by
      simp [nbIn, hnb, List.contains, hk]
    simp [hfalse]

theorem groupSevs_length (cleaned : List Record) (n : String) :
    (groupSevs cleaned n).length
      = cleaned.countP (fun r => decide (r.neighborhood = some n) && (r.severity).isSome) := by
  rw [groupSevs, List.length_filterMap_eq_countP, groupRecords, List.countP_filter]
  apply List.countP_congr
  intro r _
  simp only [Bool.and_eq_true, beq_iff_eq, decide_eq_true_eq]
  exact and_comm

theorem stats_of_totals_sum (cleaned : List Record) :
    ((stats_of cleaned).map (fun s => s.total_barriers)).sum
      = ((neighborhoods cleaned).map (fun n => (groupSevs cleaned n).length)).sum := by
  rw [stats_of]
  have hperm : List.Perm
      ((rankStats ((aggregate cleaned).map roundStats)).map (fun s => s.total_barriers))
      (((aggregate cleaned).map roundStats).map (fun s => s.total_barriers)) :=
    (rankStats_perm _).map _
  rw [hperm.sum_eq, List.map_map, aggregate, List.map_map]
  rfl

theorem sum_total_eq_countP (cleaned : List Record) :
    ((stats_of cleaned).map (fun s => s.total_barriers)).sum
      = cleaned.countP (fun r => (r.neighborhood).isSome && (r.severity).isSome) := by
  rw [stats_of_totals_sum]
  have h1 : ((neighborhoods cleaned).map (fun n => (groupSevs cleaned n).length)).sum
      = ((neighborhoods cleaned).map (fun n =>
          cleaned.countP (fun r => decide (r.neighborhood = some n) && (r.severity).isSome))).sum := by
    congr 1
    apply List.map_congr_left
    intro n _
    exact groupSevs_length cleaned n
  rw [h1, countP_nbIn cleaned (neighborhoods cleaned) (neighborhoods_nodup cleaned)]
  apply List.countP_congr
  intro r hr
  cases hn : r.neighborhood with
  | none => simp [nbIn, hn]
  | some n =>
    have : n ∈ neighborhoods cleaned := by
      rw [mem_neighborhoods]
      exact List.mem_map.2 ⟨r, hr, hn⟩
    simp [nbIn, hn, List.contains, this]

theorem mem_stats_of {cleaned : List Record} {s : NeighborhoodStats} (h : s ∈ stats_of cleaned) :
    ∃ n ∈ neighborhoods cleaned, s = roundStats (aggGroup cleaned n) := by
  rw [stats_of] at h
  have h2 := (rankStats_perm _).mem_iff.1 h
  rw [aggregate, List.map_map, List.mem_map] at h2
  obtain ⟨n, hn, hs⟩ := h2
  exact ⟨n, hn, hs.symm⟩

/-! ## The median of a nonempty list within bounds stays within them -/

theorem median_bounds {l : List ℚ} {lo hi : ℚ} (hne : l ≠ [])
    (h : ∀ v ∈ l, lo ≤ v ∧ v ≤ hi) :
    ∃ m, median l = some m ∧ lo ≤ m ∧ m ≤ hi := by
  have hperm : List.Perm (sortedAsc l) l := List.perm_insertionSort _ l
  have hmem : ∀ v ∈ sortedAsc l, lo ≤ v ∧ v ≤ hi := fun v hv => h v (hperm.mem_iff.1 hv)
  have hlen : (sortedAsc l).length ≠ 0 := by
    rw [hperm.length_eq]
    simpa [List.length_eq_zero] using hne
  rw [median, if_neg hlen]
  by_cases hodd : (sortedAsc l).length % 2 = 1
  · rw [if_pos hodd]
    have hlt : (sortedAsc l).length / 2 < (sortedAsc l).length :=
      Nat.div_lt_self (Nat.pos_of_ne_zero hlen) (by omega)
    obtain ⟨a, ha⟩ : ∃ a, (sortedAsc l)[(sortedAsc l).length / 2]? = some a := by
      rw [List.getElem?_eq_getElem hlt]
      exact ⟨_, rfl⟩
    rw [ha]
    have hb := hmem a (List.getElem?_mem ha)
    exact ⟨a, rfl, hb.1, hb.2⟩
  · rw [if_neg hodd]
    have hge : 2 ≤ (sortedAsc l).length := by omega
    have h1 : (sortedAsc l).length / 2 - 1 < (sortedAsc l).length := by omega
    have h2 : (sortedAsc l).length / 2 < (sortedAsc l).length := by omega
    obtain ⟨a, ha⟩ : ∃ a, (sortedAsc l)[(sortedAsc l).length / 2 - 1]? = some a := by
      rw [List.getElem?_eq_getElem h1]
      exact ⟨_, rfl⟩
    obtain ⟨b, hb⟩ : ∃ b, (sortedAsc l)[(sortedAsc l).length / 2]? = some b := by
      rw [List.getElem?_eq_getElem h2]
      exact ⟨_, rfl⟩
    rw [ha, hb]
    have hba := hmem a (List.getElem?_mem ha)
    have hbb := hmem b (List.getElem?_mem hb)
    refine ⟨divQ (addQ a b) 2, rfl, ?_, ?_⟩
    · rw [divQ_eq, addQ_eq]
      linarith [hba.1, hbb.1]
    · rw [divQ_eq, addQ_eq]
      linarith [hba.2, hbb.2]

/-! ## Shape lemmas for cleaning -/

theorem imputeSeverity_getElem (records : List Record) (i : ℕ) (r : Record)
    (hr : records[i]? = some r) :
    (imputeSeverity records)[i]?
      = some { r with
          severity := fillna (median (records.filterMap (fun x => x.severity))) r.severity } := by
  rw [imputeSeverity, List.getElem?_map, hr]
  rfl

theorem mem_cleanRecords {records : List Record} {r : Record} :
    r ∈ cleanRecords records ↔ r ∈ imputeSeverity records ∧ bad_coords r = false := by
  rw [cleanRecords, List.mem_filter]
  simp

theorem mem_imputeSeverity {records : List Record} {r : Record} :
    r ∈ imputeSeverity records ↔ ∃ o ∈ records,
      r = { o with
        severity := fillna (median (records.filterMap (fun x => x.severity))) o.severity } := by
  rw [imputeSeverity, List.mem_map]
  constructor
  · rintro ⟨o, ho, rfl⟩
    exact ⟨o, ho, rfl⟩
  · rintro ⟨o, ho, rfl⟩
    exact ⟨o, ho, rfl⟩

/-! ## The claims -/

/-- C5: severity imputation fills every null severity with the median of all
non-null severity values of the entire dataset; non-null severities are kept
verbatim; the median is computed once, before coordinate filtering (cleaning
is literally imputation followed by the coordinate filter); on severities
`[1, 3, null, 5, null]` the two nulls receive `median [1,3,5] = 3`, giving
`[1, 3, 3, 5, 3]`. -/
theorem imputation_median_global :
    (∀ (records : List Record) (i : ℕ) (r : Record), records[i]? = some r →
        r.severity = none →
        ∃ r2, (imputeSeverity records)[i]? = some r2 ∧
          r2.severity = median (records.filterMap (fun x => x.severity)))
    ∧ (∀ (records : List Record) (i : ℕ) (r : Record) (v : ℚ), records[i]? = some r →
        r.severity = some v →
        ∃ r2, (imputeSeverity records)[i]? = some r2 ∧ r2.severity = some v)
    ∧ (∀ records : List Record,
        cleanRecords records = (imputeSeverity records).filter (fun r => !bad_coords r))
    ∧ median [1, 3, 5] = some 3
    ∧ (imputeSeverity exC5).map (fun r => r.severity)
        = [some 1, some 3, some 3, some 5, some 3] := by
  refine ⟨?_, ?_, fun _ => rfl, by decide, by decide⟩
  · intro records i r hr hnone
    exact ⟨_, imputeSeverity_getElem records i r hr, by simp [fillna, hnone]⟩
  · intro records i r v hr hv
    exact ⟨_, imputeSeverity_getElem records i r hr, by simp [fillna, hv]⟩

/-- Witness for C5 at a concrete input: the third record of `exC5` has null
severity, and after imputation it carries the dataset median. -/
theorem imputation_median_global_witness :
    exC5[2]? = some (mkRecord (some 1) (some 1) (some "A") none)
    ∧ ∃ r2, (imputeSeverity exC5)[2]? = some r2 ∧
        r2.severity = median (exC5.filterMap (fun x => x.severity)) :=
  ⟨by decide,
    imputation_median_global.1 exC5 2 (mkRecord (some 1) (some 1) (some "A") none)
      (by decide) (by decide)⟩

/-- C6: a record is dropped by the coordinate filter iff
(`longitude = 0` and `latitude = 0`) or either coordinate is null; the
severity field plays no role in the decision; the record at `(0, 47.6)` is
retained and the record at `(0, 0)` is dropped. -/
theorem coordinate_filter_rule :
    (∀ r : Record, bad_coords r = true
        ↔ ((r.longitude = some 0 ∧ r.latitude = some 0)
            ∨ r.longitude = none ∨ r.latitude = none))
    ∧ (∀ (r : Record) (v : Option ℚ), bad_coords { r with severity := v } = bad_coords r)
    ∧ bad_coords recRetained = false
    ∧ bad_coords recDropped = true
    ∧ cleanRecords [recRetained] = [recRetained]
    ∧ cleanRecords [recDropped] = [] := by
  refine ⟨?_, fun r v => rfl, by decide, by decide, by decide, by decide⟩
  intro r
  cases hlon : r.longitude with
  | none => simp [bad_coords, hlon]
  | some x =>
    cases hlat : r.latitude with
    | none => simp [bad_coords, hlon, hlat, isZeroCoord]
    | some y => simp [bad_coords, hlon, hlat, isZeroCoord]

/-- C8: the ranked report is sorted descending by `barrier_density_index`:
every pair of consecutive entries satisfies `index[i] ≥ index[i+1]`. -/
theorem ranked_report_descending (records : List Record) :
    List.Chain' (fun a b => b.barrier_density_index ≤ a.barrier_density_index)
      (rankedReport records) :=
  List.Pairwise.chain' (rankStats_sorted _)

/-! ## Helper: boolean filter condition as a proposition -/

theorem bad_coords_iff (r : Record) :
    bad_coords r = true
      ↔ ((r.longitude = some 0 ∧ r.latitude = some 0)
          ∨ r.longitude = none ∨ r.latitude = none) := by
  cases hlon : r.longitude with
  | none => simp [bad_coords, hlon]
  | some x =>
    cases hlat : r.latitude with
    | none => simp [bad_coords, hlon, hlat, isZeroCoord]
    | some y => simp [bad_coords, hlon, hlat, isZeroCoord]

/-- C2 (counterexample): the script defines no `EmptyDatasetError` (or any
other error) for an empty cleaned set: on the input `cexC2`, whose only row
sits at the `(0,0)` sentinel, cleaning leaves zero records, yet aggregation
runs on that empty set and the pipeline produces a report (the empty one)
rather than failing. -/
theorem empty_clean_no_error_refuted :
    cleanRecords cexC2 = []
    ∧ aggregate (cleanRecords cexC2) = []
    ∧ rankedReport cexC2 = [] := by decide

/-- C2 (amended): if coordinate filtering leaves zero records, no error is
raised; aggregation runs on the empty cleaned set and the ranked report is
simply empty. -/
theorem empty_clean_empty_report (records : List Record)
    (h : cleanRecords records = []) : rankedReport records = [] := by
  rw [rankedReport, h]
  rfl

/-- Witness for the amended C2 at the concrete all-sentinel input. -/
theorem empty_clean_empty_report_witness :
    cleanRecords cexC2 = [] ∧ rankedReport cexC2 = [] :=
  ⟨by decide, empty_clean_empty_report cexC2 (by decide)⟩

/-- C3 (counterexample): `cexC3` is its own cleaned set (cleaning keeps both
rows), has two cleaned records, yet the summed `total_barriers` of its report
is 0: the null-neighborhood row is dropped by `groupby`, and the rows with
null severity (here the whole dataset has no non-null severity to impute
from) are not counted by the `("severity", "count")` aggregation. -/
theorem sum_total_eq_len_refuted :
    cleanRecords cexC3 = cexC3
    ∧ ((stats_of cexC3).map (fun s => s.total_barriers)).sum = 0
    ∧ cexC3.length = 2 := by decide

/-- C3 (amended): for every cleaned record sequence, the sum of
`total_barriers` over the report equals the number of cleaned records having
a non-null neighborhood AND a non-null severity (records with a null
neighborhood are silently dropped by `groupby`; records with a null severity
are not counted by `("severity", "count")`). -/
theorem sum_total_barriers_eq_keyed_count (cleaned : List Record) :
    ((stats_of cleaned).map (fun s => s.total_barriers)).sum
      = cleaned.countP (fun r => (r.neighborhood).isSome && (r.severity).isSome) :=
  sum_total_eq_countP cleaned

/-- C4 (counterexample): cleaning does not guarantee severities in `[1,5]`:
when every input severity is null the median does not exist and the null
survives cleaning (`cexC4a`), and an out-of-range input severity 7 passes
through unchanged (`cexC4b`). -/
theorem cleaned_severity_invariant_refuted :
    (cleanRecords cexC4a).map (fun r => r.severity) = [none]
    ∧ (cleanRecords cexC4b).map (fun r => r.severity) = [some 7]
    ∧ ¬((7 : ℚ) ≤ 5) := by decide

/-- C4 (amended): unconditionally, no cleaned record has the `(0,0)`
sentinel coordinates or a null coordinate; and provided at least one input
severity is non-null and all non-null input severities lie in `[1,5]`, every
cleaned record additionally has a non-null severity in `[1,5]`. -/
theorem cleaned_record_invariants :
    (∀ records : List Record, ∀ r ∈ cleanRecords records,
      ¬(r.longitude = some 0 ∧ r.latitude = some 0)
      ∧ r.longitude ≠ none ∧ r.latitude ≠ none)
    ∧ ∀ records : List Record,
        records.filterMap (fun r => r.severity) ≠ [] →
        (∀ v ∈ records.filterMap (fun r => r.severity), 1 ≤ v ∧ v ≤ 5) →
        ∀ r ∈ cleanRecords records, ∃ v, r.severity = some v ∧ 1 ≤ v ∧ v ≤ 5 := by
  constructor
  · intro records r hr
    obtain ⟨_, hbad⟩ := mem_cleanRecords.1 hr
    have hcoords : ¬((r.longitude = some 0 ∧ r.latitude = some 0)
        ∨ r.longitude = none ∨ r.latitude = none) := by
      rw [← bad_coords_iff]
      simp [hbad]
    exact ⟨fun hc => hcoords (Or.inl hc),
      fun hc => hcoords (Or.inr (Or.inl hc)),
      fun hc => hcoords (Or.inr (Or.inr hc))⟩
  · intro records hne hbnd r hr
    obtain ⟨himp, _⟩ := mem_cleanRecords.1 hr
    obtain ⟨o, ho, rfl⟩ := mem_imputeSeverity.1 himp
    cases ho2 : o.severity with
    | some v =>
      have hv := hbnd v (List.mem_filterMap.2 ⟨o, ho, ho2⟩)
      exact ⟨v, by simp [fillna, ho2], hv.1, hv.2⟩
    | none =>
      obtain ⟨m, hm, hm1, hm5⟩ := median_bounds hne hbnd
      exact ⟨m, by simp [fillna, ho2, hm], hm1, hm5⟩

/-- Witness for the amended C4: the coordinate invariant applied to the
cleaned record of the all-null-severity input `cexC4a` (where the severity
hypotheses fail), and the severity invariant applied to the cleaned record of
`wOne`, which satisfies both hypotheses. -/
theorem cleaned_record_invariants_witness :
    ((mkRecord (some 1) (some 1) (some "A") none) ∈ cleanRecords cexC4a
      ∧ ¬((mkRecord (some 1) (some 1) (some "A") none).longitude = some 0
            ∧ (mkRecord (some 1) (some 1) (some "A") none).latitude = some 0)
      ∧ (mkRecord (some 1) (some 1) (some "A") none).longitude ≠ none
      ∧ (mkRecord (some 1) (some 1) (some "A") none).latitude ≠ none)
    ∧ (wOne.filterMap (fun r => r.severity) ≠ []
      ∧ (∀ v ∈ wOne.filterMap (fun r => r.severity), 1 ≤ v ∧ v ≤ 5)
      ∧ ∃ v, (mkRecord (some 1) (some 1) (some "A") (some 3)).severity = some v
          ∧ 1 ≤ v ∧ v ≤ 5) :=
  ⟨⟨by decide,
      cleaned_record_invariants.1 cexC4a
        (mkRecord (some 1) (some 1) (some "A") none) (by decide)⟩,
    ⟨by decide, by decide,
      cleaned_record_invariants.2 wOne (by decide) (by decide)
        (mkRecord (some 1) (some 1) (some "A") (some 3)) (by decide)⟩⟩

/-- C10: a cleaned record whose neighborhood is null belongs to no
`groupby` group, is counted in no `total_barriers` (the summed totals count
only records with a non-null neighborhood and severity), no error is raised
(the pipeline is a total function, witnessed by the concrete run below), and
the cleaning filter never inspects the neighborhood, so such a record still
counts as a cleaned row: on `exC10` the null-neighborhood record survives
cleaning, yet the report has a single row for `"A"` with summed totals 1
against 2 cleaned rows. -/
theorem null_neighborhood_excluded :
    (∀ (cleaned : List Record) (r : Record), r ∈ cleaned → r.neighborhood = none →
        ∀ n : String, r ∉ groupRecords cleaned n)
    ∧ (∀ cleaned : List Record,
        ((stats_of cleaned).map (fun s => s.total_barriers)).sum
          = cleaned.countP (fun r => (r.neighborhood).isSome && (r.severity).isSome))
    ∧ (∀ (r : Record) (nb : Option String),
        bad_coords { r with neighborhood := nb } = bad_coords r)
    ∧ cleanRecords exC10 = exC10
    ∧ stats_of exC10 = [⟨"A", 1, 3, 3⟩]
    ∧ ((stats_of exC10).map (fun s => s.total_barriers)).sum = 1
    ∧ exC10.length = 2 := by
  refine ⟨?_, sum_total_eq_countP, fun r nb => rfl, by decide, by decide, by decide, by decide⟩
  intro cleaned r hr hnone n hmem
  rw [groupRecords, List.mem_filter] at hmem
  have h2 := hmem.2
  simp [hnone] at h2

/-- Witness for C10: the null-neighborhood record of `exC10` is in the
cleaned set but in no group. -/
theorem null_neighborhood_excluded_witness :
    (mkRecord (some 2) (some 2) none (some 4)) ∈ exC10
    ∧ (mkRecord (some 2) (some 2) none (some 4)).neighborhood = none
    ∧ (mkRecord (some 2) (some 2) none (some 4)) ∉ groupRecords exC10 "A" :=
  ⟨by decide, by decide,
    null_neighborhood_excluded.1 exC10 (mkRecord (some 2) (some 2) none (some 4))
      (by decide) (by decide) "A"⟩

set_option maxRecDepth 100000 in
/-- C1 (counterexample): for the 30-record input `cexC1` (one neighborhood,
twenty severity-1 and ten severity-2 rows) the report row is
`⟨"A", 30, 1.33, 40.0⟩`.  Its `avg_severity` column holds the mean rounded to
two decimals, `round(4/3, 2) = 1.33`, yet
`round(total_barriers * 1.33, 1) = round(39.9, 1) = 39.9 ≠ 40.0`: the index
was computed from the unrounded mean (`round(30 * 4/3, 1) = 40.0`), refuting
the claim that it is derived from the rounded average. -/
theorem index_uses_rounded_avg_refuted :
    rankedReport cexC1 = [⟨"A", 30, Rat.divInt 133 100, 40⟩]
    ∧ roundTo 2 (meanQ (groupSevs (cleanRecords cexC1) "A")) = Rat.divInt 133 100
    ∧ roundTo 1 ((30 : ℚ) * Rat.divInt 133 100) = Rat.divInt 399 10
    ∧ Rat.divInt 399 10 ≠ (40 : ℚ) := by
  refine ⟨by decide, by decide, ?_, by decide⟩
  rw [← mulQ_eq]
  decide

/-- C1 (amended): each report row satisfies
`barrier_density_index = round(total_barriers * m, 1)` where `m` is the
group's UNROUNDED mean severity, while the `avg_severity` column holds
`round(m, 2)`: the index is computed from the unrounded average, and only the
displayed average is rounded. -/
theorem index_from_unrounded_mean (cleaned : List Record) :
    ∀ s ∈ stats_of cleaned,
      s.total_barriers = (groupSevs cleaned s.neighborhood).length
      ∧ s.avg_severity = roundTo 2 (meanQ (groupSevs cleaned s.neighborhood))
      ∧ s.barrier_density_index
          = roundTo 1 ((s.total_barriers : ℚ) * meanQ (groupSevs cleaned s.neighborhood)) := by
  intro s hs
  obtain ⟨n, _, rfl⟩ := mem_stats_of hs
  refine ⟨rfl, rfl, ?_⟩
  show roundTo 1 (mulQ ((groupSevs cleaned n).length : ℚ) (meanQ (groupSevs cleaned n)))
      = roundTo 1 (((groupSevs cleaned n).length : ℚ) * meanQ (groupSevs cleaned n))
  rw [mulQ_eq]

/-- Witness for the amended C1 at the one-record input `wOne`, whose report
row is `⟨"A", 1, 3, 3.0⟩`. -/
theorem index_from_unrounded_mean_witness :
    (⟨"A", 1, 3, 3⟩ : NeighborhoodStats) ∈ stats_of wOne
    ∧ ((⟨"A", 1, 3, 3⟩ : NeighborhoodStats).total_barriers
          = (groupSevs wOne (⟨"A", 1, 3, 3⟩ : NeighborhoodStats).neighborhood).length
      ∧ (⟨"A", 1, 3, 3⟩ : NeighborhoodStats).avg_severity
          = roundTo 2 (meanQ (groupSevs wOne (⟨"A", 1, 3, 3⟩ : NeighborhoodStats).neighborhood))
      ∧ (⟨"A", 1, 3, 3⟩ : NeighborhoodStats).barrier_density_index
          = roundTo 1 (((⟨"A", 1, 3, 3⟩ : NeighborhoodStats).total_barriers : ℚ)
              * meanQ (groupSevs wOne (⟨"A", 1, 3, 3⟩ : NeighborhoodStats).neighborhood))) :=
  ⟨by decide, index_from_unrounded_mean wOne (⟨"A", 1, 3, 3⟩ : NeighborhoodStats) (by decide)⟩

/-- C7 (counterexample): on the cleaned set `cexC7n` (one record, neighborhood
`"A"`, null severity — reachable, as cleaning keeps it unchanged) the single
group's `total_barriers` is 0, but the group contains 1 record: the code
counts non-null severities, not records. -/
theorem aggregation_count_refuted :
    cleanRecords cexC7n = cexC7n
    ∧ aggregate cexC7n = [⟨"A", 0, 0, 0⟩]
    ∧ (groupRecords cexC7n "A").length = 1 := by decide

/-- C7 (amended): for each distinct non-null neighborhood value in the
cleaned data, the aggregation produces exactly one row; its `total_barriers`
is the count of the group's non-null severities (equal to the group size
whenever every cleaned severity is non-null) and its `avg_severity` at the
aggregation stage is the arithmetic mean of the group's non-null severities;
on `{(A,4),(A,2),(B,5)}` the final report is `A: total 2, avg 3.0, index 6.0`
then `B: total 1, avg 5.0, index 5.0`, ranked `[A, B]`. -/
theorem aggregation_per_group :
    (∀ (cleaned : List Record) (n : String),
      some n ∈ cleaned.map (fun r => r.neighborhood) →
        (aggregate cleaned).countP (fun s => s.neighborhood == n) = 1
        ∧ ∀ s ∈ aggregate cleaned, s.neighborhood = n →
            s.total_barriers = (groupSevs cleaned n).length
            ∧ ((∀ r ∈ cleaned, (r.severity).isSome = true) →
                s.total_barriers = (groupRecords cleaned n).length)
            ∧ s.avg_severity = meanQ (groupSevs cleaned n))
    ∧ stats_of exC7 = [⟨"A", 2, 3, 6⟩, ⟨"B", 1, 5, 5⟩] := by
  refine ⟨?_, by decide⟩
  intro cleaned n hmemn
  constructor
  · rw [aggregate, List.countP_map]
    exact List.count_eq_one_of_mem (neighborhoods_nodup cleaned) (mem_neighborhoods.2 hmemn)
  · intro s hs hsn
    rw [aggregate, List.mem_map] at hs
    obtain ⟨k, _, rfl⟩ := hs
    have hkn : k = n := hsn
    subst hkn
    refine ⟨rfl, ?_, rfl⟩
    intro hall
    show (groupSevs cleaned k).length = (groupRecords cleaned k).length
    rw [groupSevs, List.length_filterMap_eq_countP]
    exact List.countP_eq_length.2 (fun r hr => hall r (List.mem_of_mem_filter hr))

/-- Witness for the amended C7 at the concrete cleaned set `exC7` and
neighborhood `"A"`. -/
theorem aggregation_per_group_witness :
    some "A" ∈ exC7.map (fun r => r.neighborhood)
    ∧ (aggregate exC7).countP (fun s => s.neighborhood == "A") = 1 :=
  ⟨by decide, (aggregation_per_group.1 exC7 "A" (by decide)).1⟩

/-- C9 (counterexample): a dataset with exactly one neighborhood does yield a
one-row top-10 report, but the run does NOT complete without error: the
summary step reads `top10.iloc[1]` (script line 197), which raises
`IndexError` on a single-row table — modelled here by `insightRows` returning
`none`. -/
theorem one_neighborhood_no_error_refuted :
    (rankedReport cexC9).length = 1
    ∧ top10_of cexC9 = [⟨"A", 2, 3, 6⟩]
    ∧ insightRows (top10_of cexC9) = none := by decide

/-- C9 (amended): when at most 10 distinct neighborhoods exist the top-10
subset is the whole ranked report, and the ranking stage itself raises no
error; but with exactly one neighborhood the summary step's access to the
second ranked row fails (`insightRows` is `none`, an `IndexError` in the
script), so the run as a whole does not complete error-free. -/
theorem top10_contains_all_short :
    (∀ records : List Record, (rankedReport records).length ≤ 10 →
        top10_of records = rankedReport records)
    ∧ top10_of cexC9 = rankedReport cexC9
    ∧ (top10_of cexC9).length = 1
    ∧ insightRows (top10_of cexC9) = none := by
  refine ⟨?_, by decide, by decide, by decide⟩
  intro records h
  rw [top10_of, List.take_of_length_le h]

/-- Witness for the amended C9 at the one-neighborhood input `wOne`. -/
theorem top10_contains_all_short_witness :
    (rankedReport wOne).length ≤ 10 ∧ top10_of wOne = rankedReport wOne :=
  ⟨by decide, top10_contains_all_short.1 wOne (by decide)⟩
